import Mathlib

/-
Verification of the summarization playground controller
(src/summarization-api-playground/src/main.ts).

The file gives a shallow embedding of the controller as an event-loop
state machine.  A `World` holds the DOM-visible state (input text, the
three option selectors, the character counter, the output region, the
two dialogs), the single module-level debounce timer variable
(`timeout` in the source) together with the set of live host timers,
the set of in-flight asynchronous summarization bodies (one per
debounce firing, each split at its `await` points), the sessions that
have been created and not yet destroyed, and the trace of calls made
to the host capability surface.

Commands (`Cmd`) are the possible event-loop turns: a qualifying user
event (text input or a selector change), the firing of a debounce
timer, and the resolution of each awaited host promise.  `exec` runs
one turn, returning `none` when the turn is impossible in that world
(no such timer, no such task, listeners never attached, or the time
stamps are inconsistent with the pending timer deadlines).
-/

set_option maxHeartbeats 1000000

namespace SummarizationPlayground

/-- Availability tier reported by the host capability
(`capabilities().available` in main.ts): `no`, `readily`,
or `after-download`. -/
inductive Avail where
  | no
  | readily
  | afterDownload
deriving DecidableEq, Repr

/-- The three enumerated summarizer option values, read from the
`#type`, `#format` and `#length` select elements. -/
structure Options where
  type : String
  format : String
  length : String
deriving DecidableEq, Repr

/-- Line 11 of main.ts: `const MAX_MODEL_CHARS = 4000;`. -/
def MAX_MODEL_CHARS : Nat := 4000

/-- The debounce quiet period, the literal `1000` passed to
`setTimeout` on line 89 of main.ts. -/
def DEBOUNCE_MS : Nat := 1000

/-- DOM-visible input state: the textarea text, the three selector
values, the character-count display and the over-limit indicator
(`#character-count-exceed` visible, `tokens-exceeded` class set). -/
structure UIState where
  text : String
  opts : Options
  charCount : Nat
  exceededShown : Bool
deriving DecidableEq, Repr

/-- A qualifying event: an `input` event on the textarea (carrying the
new textarea value) or a `change` event on one of the selectors
(carrying the new selected value). -/
inductive QEvent where
  | input (newText : String)
  | changeType (v : String)
  | changeFormat (v : String)
  | changeLength (v : String)
deriving DecidableEq, Repr

/-- One call made to the host capability surface. -/
inductive HostCall where
  | capabilities
  | create (opts : Options)
  | summarize (sid : Nat) (text : String)
  | destroy (sid : Nat)
deriving DecidableEq, Repr

/-- Progress of one debounce-firing body (the async callback passed to
`setTimeout` on lines 78-88), split at its `await` points:
after the firing it awaits `capabilities()`, then it awaits
`create(...)`, then it awaits `session.summarize(...)`; it ends done,
or failed when the defensive availability re-check threw. -/
inductive TaskStage where
  | awaitingCapabilities
  | awaitingCreate
  | awaitingSummarize (sid : Nat)
  | done
  | failed (msg : String)
deriving DecidableEq, Repr

/-- One in-flight debounce-firing body.  `opts` are the selector values
read synchronously at firing time (the arguments of the
`createSummarizationSession` call, lines 82-85). -/
structure STask where
  id : Nat
  opts : Options
  stage : TaskStage
deriving DecidableEq, Repr

/-- Whole-page state. -/
@[ext]
structure World where
  /-- Current event-loop time in milliseconds. -/
  now : Nat
  ui : UIState
  /-- Live host timers: (handle, deadline) pairs. -/
  pending : List (Nat × Nat)
  /-- Next fresh timer handle. -/
  nextHandle : Nat
  /-- The module-level `timeout` variable of `initializeApplication`
  (line 73): the handle stored by the last `setTimeout`. -/
  timeoutVar : Option Nat
  /-- True once lines 91-105 attached the selector and input listeners. -/
  listeners : Bool
  tasks : List STask
  nextTaskId : Nat
  /-- Next fresh session id handed out by the host `create` call. -/
  nextSid : Nat
  /-- Sessions created and not yet destroyed. -/
  alive : List Nat
  /-- `output.textContent`. -/
  outputText : String
  trace : List HostCall
  /-- Messages of promise rejections nothing in this code catches. -/
  unhandled : List String
  unavailableShown : Bool
  unsupportedShown : Bool
deriving DecidableEq, Repr

/-- The host environment probed at startup: whether `window.ai` and
`window.ai.summarizer` exist, and the availability tier the startup
`capabilities()` call reports. -/
structure Host where
  aiPresent : Bool
  summarizerPresent : Bool
  avail : Avail
deriving DecidableEq, Repr

/-- A created summarizer session as returned by the host `create`
call, parameterized by the options and whether a download-progress
monitor callback was registered. -/
structure AISummarizer where
  type : String
  format : String
  length : String
  monitorRegistered : Bool
deriving DecidableEq, Repr

/-- Lines 34-53 of main.ts, as a pure function of the availability the
inner `capabilities()` call reports.  Throwing is modeled as
`Except.error` carrying the message of the `Error`; a resolved
promise is `Except.ok`, carrying the ready session. -/
def createSummarizationSession (capAvailable : Avail)
    (type format length : String)
    (downloadProgressListener : Option Nat) : Except String AISummarizer :=
  if capAvailable = .no then
    .error "AI Summarization is not supported"
  else
    .ok { type := type, format := format, length := length,
          monitorRegistered := downloadProgressListener.isSome }

/-- Effect of one qualifying event on the DOM-visible input state.
An input event runs the listener body of lines 95-105 (character
count, over-limit indicator); a change event only updates the
selector value. -/
def applyQEvent (u : UIState) (e : QEvent) : UIState :=
  match e with
  | .input s =>
      { u with text := s, charCount := s.length,
               exceededShown := decide (s.length > MAX_MODEL_CHARS) }
  | .changeType v => { u with opts := { u.opts with type := v } }
  | .changeFormat v => { u with opts := { u.opts with format := v } }
  | .changeLength v => { u with opts := { u.opts with length := v } }

/-- Lines 74-89 of main.ts: `clearTimeout(timeout)` removes the timer
whose handle is stored in the `timeout` variable (a no-op if that
timer already fired), then `setTimeout(..., 1000)` registers a fresh
timer due `DEBOUNCE_MS` after the current instant `t`, and its handle
is stored back into `timeout`. -/
def scheduleSummarization (w : World) (t : Nat) : World :=
  let cleared := w.pending.filter (fun p => !(w.timeoutVar == some p.1))
  { w with pending := cleared ++ [(w.nextHandle, t + DEBOUNCE_MS)],
           timeoutVar := some w.nextHandle,
           nextHandle := w.nextHandle + 1 }

/-- Possible event-loop turns, see `exec`. -/
inductive Cmd where
  | uiEvent (t : Nat) (e : QEvent)
  | fireTimer (h : Nat)
  | resolveCapabilities (tid : Nat) (t : Nat) (resp : Avail)
  | resolveCreate (tid : Nat) (t : Nat)
  | resolveSummarize (tid : Nat) (t : Nat) (result : String)
deriving DecidableEq, Repr

/-- Update the stage of the first task with the given id. -/
def setTaskStage : List STask → Nat → TaskStage → List STask
  | [], _, _ => []
  | tk :: rest, tid, st =>
      if tk.id == tid then { tk with stage := st } :: rest
      else tk :: setTaskStage rest tid st

/-- Effect of one qualifying user event at time `t`: run the listener
body (lines 95-104 for input, nothing DOM-visible for a selector
change) and call `scheduleSummarization` (line 105 and lines
91-93). -/
def uiEventResult (w : World) (t : Nat) (e : QEvent) : World :=
  scheduleSummarization { w with now := t, ui := applyQEvent w.ui e } t

/-- Effect of the debounce timer with handle `hd` firing at its
deadline `d`: the timer is consumed, the synchronous prefix of the
callback of lines 78-88 runs — the placeholder is shown (line 79),
the selector values are read as the arguments of the
`createSummarizationSession` call (lines 80-85), and within it the
`capabilities()` call is issued (line 39) — and the body now awaits
the capabilities promise. -/
def fireResult (w : World) (hd d : Nat) : World :=
  { w with
    now := d,
    pending := w.pending.filter (fun q => !(q.1 == hd)),
    outputText := "Generating summary...",
    tasks := w.tasks ++
      [{ id := w.nextTaskId, opts := w.ui.opts,
         stage := .awaitingCapabilities }],
    nextTaskId := w.nextTaskId + 1,
    trace := w.trace ++ [.capabilities] }

/-- Effect of the awaited `capabilities()` promise of task `tid`
resolving to `no` at time `t`: line 41 throws, the rejection is
caught nowhere, so the body stops failed and the message joins the
unhandled rejections; nothing else changes. -/
def capabilitiesFailResult (w : World) (tid t : Nat) : World :=
  { w with
    now := t,
    tasks := setTaskStage w.tasks tid
      (.failed "AI Summarization is not supported"),
    unhandled := w.unhandled ++ ["AI Summarization is not supported"] }

/-- Effect of the awaited `capabilities()` promise of task `tid`
resolving to a non-`no` tier at time `t`: the body proceeds to the
`create` call (line 51) with the options captured at firing time, and
now awaits the create promise. -/
def capabilitiesOkResult (w : World) (tid t : Nat) (opts : Options) : World :=
  { w with
    now := t,
    tasks := setTaskStage w.tasks tid .awaitingCreate,
    trace := w.trace ++ [.create opts] }

/-- Effect of the awaited `create` promise of task `tid` resolving at
time `t`: a fresh session exists, and the body calls
`session.summarize(inputTextArea.value)` (line 86), reading the
textarea at this instant, and awaits the summarize promise. -/
def createResult (w : World) (tid t : Nat) : World :=
  { w with
    now := t,
    tasks := setTaskStage w.tasks tid (.awaitingSummarize w.nextSid),
    alive := w.alive ++ [w.nextSid],
    nextSid := w.nextSid + 1,
    trace := w.trace ++ [.summarize w.nextSid w.ui.text] }

/-- Effect of the awaited `summarize` promise of task `tid` (whose
session is `sid`) resolving to `result` at time `t`: the body runs
`session.destroy()` and renders the result (lines 87-88), and is
done. -/
def summarizeResult (w : World) (tid t sid : Nat) (result : String) : World :=
  { w with
    now := t,
    tasks := setTaskStage w.tasks tid .done,
    alive := w.alive.erase sid,
    outputText := result,
    trace := w.trace ++ [.destroy sid] }

/-- One event-loop turn.  `uiEvent t e` is a qualifying user event at
time `t`; `fireTimer h` runs the debounce callback of the live timer
with handle `h` at its deadline; the three `resolve*` commands resume
a firing body at its next `await`, the capabilities resolution
carrying the availability tier the host reports this time.  Turns
carry their wall-clock time, which must not precede `now` and must
precede every live timer deadline (a due timer fires first). -/
def exec (w : World) (c : Cmd) : Option World :=
  match c with
  | .uiEvent t e =>
      if w.listeners = true ∧ w.now ≤ t ∧ (∀ p ∈ w.pending, t < p.2) then
        some (uiEventResult w t e)
      else none
  | .fireTimer h =>
      match w.pending.find? (fun p => p.1 == h) with
      | none => none
      | some p =>
          if w.now ≤ p.2 then some (fireResult w h p.2) else none
  | .resolveCapabilities tid t resp =>
      if w.now ≤ t ∧ (∀ p ∈ w.pending, t < p.2) then
        match w.tasks.find? (fun tk => tk.id == tid) with
        | some tk =>
            match tk.stage with
            | .awaitingCapabilities =>
                if resp = .no then some (capabilitiesFailResult w tid t)
                else some (capabilitiesOkResult w tid t tk.opts)
            | _ => none
        | none => none
      else none
  | .resolveCreate tid t =>
      if w.now ≤ t ∧ (∀ p ∈ w.pending, t < p.2) then
        match w.tasks.find? (fun tk => tk.id == tid) with
        | some tk =>
            match tk.stage with
            | .awaitingCreate => some (createResult w tid t)
            | _ => none
        | none => none
      else none
  | .resolveSummarize tid t result =>
      if w.now ≤ t ∧ (∀ p ∈ w.pending, t < p.2) then
        match w.tasks.find? (fun tk => tk.id == tid) with
        | some tk =>
            match tk.stage with
            | .awaitingSummarize sid =>
                some (summarizeResult w tid t sid result)
            | _ => none
        | none => none
      else none

/-- Run a list of event-loop turns. -/
def execList (w : World) : List Cmd → Option World
  | [] => some w
  | c :: cs =>
      match exec w c with
      | some w' => execList w' cs
      | none => none

/-- The page as loaded: empty textarea, the initial selector values
`o`, zero character count, no over-limit indicator, no timers, no
tasks, no sessions, hidden dialogs, empty output. -/
def initialUI (o : Options) : UIState :=
  { text := "", opts := o, charCount := 0, exceededShown := false }

def baseWorld (o : Options) : World :=
  { now := 0, ui := initialUI o, pending := [], nextHandle := 0,
    timeoutVar := none, listeners := false, tasks := [], nextTaskId := 0,
    nextSid := 0, alive := [], outputText := "", trace := [],
    unhandled := [], unavailableShown := false, unsupportedShown := false }

/-- Lines 59-106 of main.ts.  If `window.ai` or `window.ai.summarizer`
is undefined, show the unavailable dialog and return (no capability
call is made).  Otherwise call `capabilities()`; if it reports `no`,
show the unsupported dialog and return.  Otherwise attach the
selector and input listeners. -/
def initializeApplication (h : Host) (o : Options) : World :=
  if !(h.aiPresent && h.summarizerPresent) then
    { baseWorld o with unavailableShown := true }
  else if h.avail = .no then
    { baseWorld o with trace := [.capabilities], unsupportedShown := true }
  else
    { baseWorld o with trace := [.capabilities], listeners := true }

/-- The ready state after a successful initialization. -/
def readyWorld (o : Options) : World :=
  { baseWorld o with trace := [.capabilities], listeners := true }

/-- True of the startup and defensive-re-check `capabilities()` calls. -/
def isCapabilitiesCall : HostCall → Bool
  | .capabilities => true
  | _ => false

/-- Number of capability-availability queries in a host-call trace. -/
def capCount (tr : List HostCall) : Nat := tr.countP isCapabilitiesCall

/-- The session-related host calls of a trace: create, summarize and
destroy, with the capability queries removed. -/
def sessionCalls (tr : List HostCall) : List HostCall :=
  tr.filter (fun c => !(isCapabilitiesCall c))

/-- A firing body that has not yet run to completion or failure. -/
def isActiveStage : TaskStage → Bool
  | .awaitingCapabilities => true
  | .awaitingCreate => true
  | .awaitingSummarize _ => true
  | .done => false
  | .failed _ => false

/-- Number of in-flight firing bodies. -/
def activeCount (w : World) : Nat :=
  w.tasks.countP (fun tk => isActiveStage tk.stage)

/-- The timer invariant: at most one live debounce timer, and the
module-level `timeout` variable stores the handle of any live timer. -/
def SchedInv (w : World) : Prop :=
  w.pending.length ≤ 1 ∧ ∀ p ∈ w.pending, w.timeoutVar = some p.1

/-- The session invariant: at most one firing body is in flight, and
every live session is the one an in-flight body is currently
summarizing with. -/
def WInv (w : World) : Prop :=
  activeCount w ≤ 1 ∧
  (w.alive = [] ∨ ∃ sid, w.alive = [sid] ∧
    ∃ tk, tk ∈ w.tasks ∧ tk.stage = .awaitingSummarize sid)

/-- A rapid event chain after an event at time `prev`: times are
nondecreasing and consecutive events are strictly less than the
debounce period apart. -/
def chainTail : Nat → List (Nat × QEvent) → Bool
  | _, [] => true
  | prev, (t, _) :: rest =>
      (decide (prev ≤ t) && decide (t < prev + DEBOUNCE_MS)) && chainTail t rest

/-- Time of the last event of the chain `(t0, e0) :: rest`. -/
def lastT (t0 : Nat) : List (Nat × QEvent) → Nat
  | [] => t0
  | (t, _) :: rest => lastT t rest

/-- The DOM-visible input state after a chain of qualifying events. -/
def finalUi (u : UIState) (es : List (Nat × QEvent)) : UIState :=
  es.foldl (fun acc p => applyQEvent acc p.2) u

/-- State after processing the event chain `(t0, e0) :: rest` from
`w`: every earlier timer was canceled, exactly one timer is live, due
one debounce period after the last event, and no firing happened. -/
def afterChain (w : World) (t0 : Nat) (e0 : QEvent) (rest : List (Nat × QEvent)) : World :=
  { w with now := lastT t0 rest,
           ui := finalUi w.ui ((t0, e0) :: rest),
           pending := [(w.nextHandle + rest.length, lastT t0 rest + DEBOUNCE_MS)],
           timeoutVar := some (w.nextHandle + rest.length),
           nextHandle := w.nextHandle + rest.length + 1 }

/-- The selector defaults of the page markup. -/
def kpOpts : Options :=
  { type := "key-points", format := "plain-text", length := "short" }

/-- A host whose summarizer is present and readily available. -/
def hostReadily : Host :=
  { aiPresent := true, summarizerPresent := true, avail := .readily }

/-- A qualifying event at a time no live timer has reached runs the
input/change listener and reschedules: the stored timer is canceled
and a single fresh timer is registered, due one debounce period
later. -/
theorem exec_uiEvent_eq (w : World) (t : Nat) (e : QEvent)
    (hl : w.listeners = true) (hnow : w.now ≤ t)
    (hpend : ∀ p ∈ w.pending, t < p.2)
    (htv : ∀ p ∈ w.pending, w.timeoutVar = some p.1) :
    exec w (.uiEvent t e) = some
      { w with
        now := t, ui := applyQEvent w.ui e,
        pending := [(w.nextHandle, t + DEBOUNCE_MS)],
        timeoutVar := some w.nextHandle,
        nextHandle := w.nextHandle + 1 } := by
  have hfil : w.pending.filter (fun p => !(w.timeoutVar == some p.1)) = [] := by
    rw [List.filter_eq_nil_iff]
    intro p hp
    simp [htv p hp]
  simp only [exec]
  rw [if_pos ⟨hl, hnow, hpend⟩]
  simp [uiEventResult, scheduleSummarization, hfil]

theorem execList_cons (w : World) (c : Cmd) (cs : List Cmd) :
    execList w (c :: cs) =
      match exec w c with
      | some w' => execList w' cs
      | none => none := rfl

/-- Processing a rapid event chain never fires the debounce callback:
each event cancels the previous timer, and at the end exactly one
timer is live, due one debounce period after the last event, with the
input state folded over all the events. -/
theorem execList_chain (rest : List (Nat × QEvent)) :
    ∀ (w : World) (t0 : Nat) (e0 : QEvent),
      w.listeners = true →
      (∀ p ∈ w.pending, w.timeoutVar = some p.1) →
      w.now ≤ t0 →
      (∀ p ∈ w.pending, t0 < p.2) →
      chainTail t0 rest = true →
      execList w (((t0, e0) :: rest).map (fun p => Cmd.uiEvent p.1 p.2))
        = some (afterChain w t0 e0 rest) := by
  induction rest with
  | nil =>
      intro w t0 e0 hl htv hnow hp _
      simp only [List.map_cons, List.map_nil, execList,
        exec_uiEvent_eq w t0 e0 hl hnow hp htv]
      refine congrArg some ?_
      apply World.ext <;> simp [afterChain, lastT, finalUi]
  | cons hd rest ih =>
      intro w t0 e0 hl htv hnow hp hchain
      obtain ⟨t1, e1⟩ := hd
      simp only [chainTail, Bool.and_eq_true, decide_eq_true_eq] at hchain
      obtain ⟨⟨h01, hlt⟩, htail⟩ := hchain
      have hstep := exec_uiEvent_eq w t0 e0 hl hnow hp htv
      have hih := ih
        { w with
          now := t0, ui := applyQEvent w.ui e0,
          pending := [(w.nextHandle, t0 + DEBOUNCE_MS)],
          timeoutVar := some w.nextHandle,
          nextHandle := w.nextHandle + 1 } t1 e1
        (by simp [hl]) (by simp) (by simpa using h01)
        (by
          intro p hp2
          rw [List.mem_singleton] at hp2
          subst hp2
          exact hlt) htail
      rw [List.map_cons]
      simp only [execList_cons, hstep]
      rw [hih]
      refine congrArg some ?_
      apply World.ext <;> (simp [afterChain, lastT, finalUi]) <;> omega

/-- From an idle state with one live timer and no in-flight body, the
timer firing followed by prompt host responses performs one complete
cycle: the placeholder is shown, the session is created with the
selector values read at firing time, summarize is called with the
textarea text, the session is destroyed, and the result is shown. -/
theorem execList_fireCycle (w : World) (hdl d : Nat) (r : String)
    (hp : w.pending = [(hdl, d)]) (hnow : w.now ≤ d)
    (htasks : w.tasks = []) (htid : w.nextTaskId = 0) (hsid : w.nextSid = 0)
    (halive : w.alive = []) :
    execList w [Cmd.fireTimer hdl, Cmd.resolveCapabilities 0 d .readily,
      Cmd.resolveCreate 0 d, Cmd.resolveSummarize 0 d r]
      = some { w with
          now := d,
          pending := [],
          tasks := [{ id := 0, opts := w.ui.opts, stage := TaskStage.done }],
          nextTaskId := 1, nextSid := 1, alive := [],
          outputText := r,
          trace := w.trace ++ [.capabilities, .create w.ui.opts,
            .summarize 0 w.ui.text, .destroy 0] } := by
  have h1 : exec w (.fireTimer hdl) = some { w with
      now := d,
      pending := [],
      outputText := "Generating summary...",
      tasks := [{ id := 0, opts := w.ui.opts,
                  stage := TaskStage.awaitingCapabilities }],
      nextTaskId := 1,
      trace := w.trace ++ [.capabilities] } := by
    simp [exec, fireResult, hp, hnow, htasks, htid]
  have h2 : exec { w with
      now := d,
      pending := [],
      outputText := "Generating summary...",
      tasks := [{ id := 0, opts := w.ui.opts,
                  stage := TaskStage.awaitingCapabilities }],
      nextTaskId := 1,
      trace := w.trace ++ [.capabilities] }
      (.resolveCapabilities 0 d .readily) = some { w with
      now := d,
      pending := [],
      outputText := "Generating summary...",
      tasks := [{ id := 0, opts := w.ui.opts,
                  stage := TaskStage.awaitingCreate }],
      nextTaskId := 1,
      trace := w.trace ++ [.capabilities, .create w.ui.opts] } := by
    simp [exec, capabilitiesOkResult, setTaskStage, List.find?]
  have h3 : exec { w with
      now := d,
      pending := [],
      outputText := "Generating summary...",
      tasks := [{ id := 0, opts := w.ui.opts,
                  stage := TaskStage.awaitingCreate }],
      nextTaskId := 1,
      trace := w.trace ++ [.capabilities, .create w.ui.opts] }
      (.resolveCreate 0 d) = some { w with
      now := d,
      pending := [],
      outputText := "Generating summary...",
      tasks := [{ id := 0, opts := w.ui.opts,
                  stage := TaskStage.awaitingSummarize w.nextSid }],
      nextTaskId := 1, nextSid := w.nextSid + 1,
      alive := w.alive ++ [w.nextSid],
      trace := w.trace ++ [.capabilities, .create w.ui.opts,
        .summarize w.nextSid w.ui.text] } := by
    simp [exec, createResult, setTaskStage, List.find?]
  have h4 : exec { w with
      now := d,
      pending := [],
      outputText := "Generating summary...",
      tasks := [{ id := 0, opts := w.ui.opts,
                  stage := TaskStage.awaitingSummarize w.nextSid }],
      nextTaskId := 1, nextSid := w.nextSid + 1,
      alive := w.alive ++ [w.nextSid],
      trace := w.trace ++ [.capabilities, .create w.ui.opts,
        .summarize w.nextSid w.ui.text] }
      (.resolveSummarize 0 d r) = some { w with
      now := d,
      pending := [],
      outputText := r,
      tasks := [{ id := 0, opts := w.ui.opts, stage := TaskStage.done }],
      nextTaskId := 1, nextSid := w.nextSid + 1,
      alive := (w.alive ++ [w.nextSid]).erase w.nextSid,
      trace := w.trace ++ [.capabilities, .create w.ui.opts,
        .summarize w.nextSid w.ui.text, .destroy w.nextSid] } := by
    simp [exec, summarizeResult, setTaskStage, List.find?]
  simp only [execList_cons, h1, h2, h3, h4, execList]
  refine congrArg some ?_
  apply World.ext <;> simp [hsid, halive]

theorem execList_append (w : World) (cs1 cs2 : List Cmd) :
    execList w (cs1 ++ cs2) =
      match execList w cs1 with
      | some w' => execList w' cs2
      | none => none := by
  induction cs1 generalizing w with
  | nil => simp [execList]
  | cons c cs ih =>
      simp only [List.cons_append, execList_cons]
      cases exec w c <;> simp [ih]

theorem execList_append_some (w w' : World) (cs1 cs2 : List Cmd)
    (hc : execList w cs1 = some w') :
    execList w (cs1 ++ cs2) = execList w' cs2 := by
  rw [execList_append, hc]

theorem initializeApplication_ready (h : Host) (o : Options)
    (hai : h.aiPresent = true) (hsm : h.summarizerPresent = true)
    (hav : h.avail ≠ .no) :
    initializeApplication h o = readyWorld o := by
  simp [initializeApplication, readyWorld, hai, hsm, hav]

/-- C1: for every sequence of qualifying events in which consecutive
events are less than the debounce period apart, no callback fires
during the sequence (no leading edge: each event cancels the pending
timer and reschedules), and once the host answers the single eventual
firing, exactly one summarization cycle has run, whose create call
uses the option values, and whose summarize call uses the input text,
current at the time of the last event. -/
theorem debounce_last_event_wins (h : Host) (o : Options) (t0 : Nat)
    (e0 : QEvent) (rest : List (Nat × QEvent)) (r : String)
    (hai : h.aiPresent = true) (hsm : h.summarizerPresent = true)
    (hav : h.avail ≠ .no)
    (hchain : chainTail t0 rest = true) :
    execList (initializeApplication h o)
      (((t0, e0) :: rest).map (fun p => Cmd.uiEvent p.1 p.2) ++
        [Cmd.fireTimer rest.length,
         Cmd.resolveCapabilities 0 (lastT t0 rest + DEBOUNCE_MS) .readily,
         Cmd.resolveCreate 0 (lastT t0 rest + DEBOUNCE_MS),
         Cmd.resolveSummarize 0 (lastT t0 rest + DEBOUNCE_MS) r])
    = some { afterChain (readyWorld o) t0 e0 rest with
        now := lastT t0 rest + DEBOUNCE_MS,
        pending := [],
        tasks := [{ id := 0,
                    opts := (finalUi (initialUI o) ((t0, e0) :: rest)).opts,
                    stage := TaskStage.done }],
        nextTaskId := 1, nextSid := 1, alive := [],
        outputText := r,
        trace := [.capabilities, .capabilities,
          .create (finalUi (initialUI o) ((t0, e0) :: rest)).opts,
          .summarize 0 (finalUi (initialUI o) ((t0, e0) :: rest)).text,
          .destroy 0] } := by
  rw [initializeApplication_ready h o hai hsm hav,
    execList_append_some _ _ _ _
      (execList_chain rest (readyWorld o) t0 e0 rfl
        (by simp [readyWorld, baseWorld])
        (by simp [readyWorld, baseWorld])
        (by simp [readyWorld, baseWorld]) hchain)]
  rw [execList_fireCycle (afterChain (readyWorld o) t0 e0 rest)
      rest.length (lastT t0 rest + DEBOUNCE_MS) r
      (by simp [afterChain, readyWorld, baseWorld])
      (by simp [afterChain])
      (by simp [afterChain, readyWorld, baseWorld])
      (by simp [afterChain, readyWorld, baseWorld])
      (by simp [afterChain, readyWorld, baseWorld])
      (by simp [afterChain, readyWorld, baseWorld])]
  refine congrArg some ?_
  apply World.ext <;>
    simp [afterChain, readyWorld, baseWorld, finalUi, initialUI]

/-- Witness for `debounce_last_event_wins`: two input events 500ms
apart; only the second text is summarized. -/
theorem debounce_last_event_wins_witness :
    execList (initializeApplication hostReadily kpOpts)
      (([((0 : Nat), QEvent.input "Hi"),
         ((500 : Nat), QEvent.input "Hello world")]).map
          (fun p => Cmd.uiEvent p.1 p.2) ++
        [Cmd.fireTimer [((500 : Nat), QEvent.input "Hello world")].length,
         Cmd.resolveCapabilities 0
           (lastT 0 [(500, QEvent.input "Hello world")] + DEBOUNCE_MS) .readily,
         Cmd.resolveCreate 0
           (lastT 0 [(500, QEvent.input "Hello world")] + DEBOUNCE_MS),
         Cmd.resolveSummarize 0
           (lastT 0 [(500, QEvent.input "Hello world")] + DEBOUNCE_MS)
           "A summary."])
    = some { afterChain (readyWorld kpOpts) 0 (QEvent.input "Hi")
          [(500, QEvent.input "Hello world")] with
        now := lastT 0 [(500, QEvent.input "Hello world")] + DEBOUNCE_MS,
        pending := [],
        tasks := [{ id := 0,
                    opts := (finalUi (initialUI kpOpts)
                      [(0, QEvent.input "Hi"),
                       (500, QEvent.input "Hello world")]).opts,
                    stage := TaskStage.done }],
        nextTaskId := 1, nextSid := 1, alive := [],
        outputText := "A summary.",
        trace := [.capabilities, .capabilities,
          .create (finalUi (initialUI kpOpts)
            [(0, QEvent.input "Hi"), (500, QEvent.input "Hello world")]).opts,
          .summarize 0 (finalUi (initialUI kpOpts)
            [(0, QEvent.input "Hi"), (500, QEvent.input "Hello world")]).text,
          .destroy 0] } :=
  debounce_last_event_wins hostReadily kpOpts 0 (QEvent.input "Hi")
    [(500, QEvent.input "Hello world")] "A summary." rfl rfl
    (by decide) (by decide)

/-- C2: given readily availability, submitting "Hello world" with
options key-points / plain-text / short and letting the debounce
period elapse performs exactly one session create, then exactly one
summarize with "Hello world", then exactly one destroy, in that
order, and renders the returned summary. -/
theorem single_submission_call_order :
    (execList (initializeApplication hostReadily kpOpts)
      [Cmd.uiEvent 0 (.input "Hello world"), Cmd.fireTimer 0,
       Cmd.resolveCapabilities 0 1000 .readily, Cmd.resolveCreate 0 1000,
       Cmd.resolveSummarize 0 1000 "A summary."]).map
        (fun w => (sessionCalls w.trace, w.outputText))
    = some ([HostCall.create kpOpts, HostCall.summarize 0 "Hello world",
             HostCall.destroy 0], "A summary.") := by
  rfl

/-- C3: on every input event the displayed character count equals the
length of the current input text, the over-limit indicator is shown
iff that length strictly exceeds MAX_MODEL_CHARS (in particular the
boundary 4000 itself is not over limit), and a summarization is still
scheduled regardless of the length. -/
theorem charcount_feedback (w : World) (t : Nat) (s : String)
    (hl : w.listeners = true) (hnow : w.now ≤ t)
    (hpend : ∀ p ∈ w.pending, t < p.2) :
    ∃ w', exec w (.uiEvent t (.input s)) = some w' ∧
      w'.ui.charCount = s.length ∧
      (w'.ui.exceededShown = true ↔ s.length > MAX_MODEL_CHARS) ∧
      (w.nextHandle, t + DEBOUNCE_MS) ∈ w'.pending := by
  simp only [exec]
  rw [if_pos ⟨hl, hnow, hpend⟩]
  refine ⟨_, rfl, ?_, ?_, ?_⟩
  · simp [uiEventResult, scheduleSummarization, applyQEvent]
  · simp [uiEventResult, scheduleSummarization, applyQEvent]
  · simp [uiEventResult, scheduleSummarization]

/-- Witness for `charcount_feedback` on the ready initial state. -/
theorem charcount_feedback_witness :
    ∃ w', exec (readyWorld kpOpts) (.uiEvent 0 (.input "Hello")) = some w' ∧
      w'.ui.charCount = "Hello".length ∧
      (w'.ui.exceededShown = true ↔ "Hello".length > MAX_MODEL_CHARS) ∧
      ((readyWorld kpOpts).nextHandle, 0 + DEBOUNCE_MS) ∈ w'.pending :=
  charcount_feedback (readyWorld kpOpts) 0 "Hello" rfl (by decide) (by decide)

/-- C4: createSummarizationSession fails, with the error message
"AI Summarization is not supported", exactly when the re-checked
availability is no; for any other availability it resolves to a ready
session carrying the requested options, with a download monitor
registered iff a progress listener was supplied. -/
theorem createSummarizationSession_spec (a : Avail) (ty fm ln : String)
    (dpl : Option Nat) :
    (createSummarizationSession a ty fm ln dpl
        = .error "AI Summarization is not supported" ↔ a = .no) ∧
    (a ≠ .no → createSummarizationSession a ty fm ln dpl
        = .ok { type := ty, format := fm, length := ln,
                monitorRegistered := dpl.isSome }) := by
  unfold createSummarizationSession
  constructor
  · by_cases hna : a = .no <;> simp [hna]
  · intro hna
    simp [hna]

/-- Witness for `createSummarizationSession_spec` at availability
readily and at availability no. -/
theorem createSummarizationSession_spec_witness :
    (createSummarizationSession .readily "key-points" "plain-text" "short"
        none = .error "AI Summarization is not supported"
      ↔ Avail.readily = .no) ∧
    (Avail.readily ≠ .no →
      createSummarizationSession .readily "key-points" "plain-text" "short"
          none
        = .ok { type := "key-points", format := "plain-text",
                length := "short", monitorRegistered := false }) :=
  createSummarizationSession_spec .readily "key-points" "plain-text" "short"
    none

/-- C5: if window.ai or window.ai.summarizer is undefined,
initialization shows the unavailable dialog and returns: no
capability call is made, no listeners are attached, and the other
dialog is not shown. -/
theorem unavailable_halts (h : Host) (o : Options)
    (hna : (h.aiPresent && h.summarizerPresent) = false) :
    initializeApplication h o
      = { baseWorld o with unavailableShown := true } ∧
    (initializeApplication h o).trace = [] ∧
    (initializeApplication h o).listeners = false ∧
    (initializeApplication h o).unsupportedShown = false := by
  have hi : initializeApplication h o
      = { baseWorld o with unavailableShown := true } := by
    simp [initializeApplication, hna]
  refine ⟨hi, ?_, ?_, ?_⟩ <;> simp [hi, baseWorld]

/-- Witness for `unavailable_halts` with window.ai undefined. -/
theorem unavailable_halts_witness :
    initializeApplication ⟨false, false, .readily⟩ kpOpts
      = { baseWorld kpOpts with unavailableShown := true } ∧
    (initializeApplication ⟨false, false, .readily⟩ kpOpts).trace = [] ∧
    (initializeApplication ⟨false, false, .readily⟩ kpOpts).listeners
      = false ∧
    (initializeApplication ⟨false, false, .readily⟩ kpOpts).unsupportedShown
      = false :=
  unavailable_halts ⟨false, false, .readily⟩ kpOpts rfl

/-- C6: if the capability is present but availability is no,
initialization shows the unsupported dialog and attaches no
listeners; from the resulting state no event-loop turn is possible at
all, so no summarization attempt can ever occur afterwards. -/
theorem unsupported_halts (h : Host) (o : Options)
    (hai : h.aiPresent = true) (hsm : h.summarizerPresent = true)
    (hno : h.avail = .no) :
    (initializeApplication h o).unsupportedShown = true ∧
    (initializeApplication h o).listeners = false ∧
    ∀ c, exec (initializeApplication h o) c = none := by
  have hi : initializeApplication h o
      = { baseWorld o with
          trace := [.capabilities],
          unsupportedShown := true } := by
    simp [initializeApplication, hai, hsm, hno]
  rw [hi]
  refine ⟨rfl, rfl, ?_⟩
  intro c
  cases c with
  | uiEvent t e => simp [exec, baseWorld]
  | fireTimer hd => simp [exec, baseWorld]
  | resolveCapabilities tid t resp => simp [exec, baseWorld]
  | resolveCreate tid t => simp [exec, baseWorld]
  | resolveSummarize tid t r => simp [exec, baseWorld]

/-- Witness for `unsupported_halts`. -/
theorem unsupported_halts_witness :
    (initializeApplication ⟨true, true, .no⟩ kpOpts).unsupportedShown
      = true ∧
    (initializeApplication ⟨true, true, .no⟩ kpOpts).listeners = false ∧
    ∀ c, exec (initializeApplication ⟨true, true, .no⟩ kpOpts) c = none :=
  unsupported_halts ⟨true, true, .no⟩ kpOpts rfl rfl rfl

theorem sched_filter_nil (w : World)
    (htv : ∀ p ∈ w.pending, w.timeoutVar = some p.1) :
    w.pending.filter (fun p => !(w.timeoutVar == some p.1)) = [] := by
  rw [List.filter_eq_nil_iff]
  intro p hp
  simp [htv p hp]

theorem countP_setTaskStage (ts : List STask) (tid : Nat) (st : TaskStage)
    (old : STask) (p : STask → Bool)
    (hfind : ts.find? (fun tk => tk.id == tid) = some old) :
    (setTaskStage ts tid st).countP p + (if p old then 1 else 0)
      = ts.countP p + (if p { old with stage := st } then 1 else 0) := by
  induction ts with
  | nil => simp [List.find?] at hfind
  | cons hd rest ih =>
      by_cases hh : (hd.id == tid) = true
      · rw [@List.find?_cons_of_pos _ (fun tk => tk.id == tid) hd rest hh] at hfind
        injection hfind with hfind
        subst hfind
        simp only [setTaskStage, hh, if_true, List.countP_cons]
        omega
      · rw [@List.find?_cons_of_neg _ (fun tk => tk.id == tid) hd rest hh] at hfind
        have := ih hfind
        simp [setTaskStage, hh, List.countP_cons]
        omega

theorem mem_setTaskStage_self (ts : List STask) (tid : Nat) (st : TaskStage)
    (old : STask)
    (hfind : ts.find? (fun tk => tk.id == tid) = some old) :
    { old with stage := st } ∈ setTaskStage ts tid st := by
  induction ts with
  | nil => simp [List.find?] at hfind
  | cons hd rest ih =>
      by_cases hh : (hd.id == tid) = true
      · rw [@List.find?_cons_of_pos _ (fun tk => tk.id == tid) hd rest hh] at hfind
        injection hfind with hfind
        subst hfind
        simp [setTaskStage, hh]
      · rw [@List.find?_cons_of_neg _ (fun tk => tk.id == tid) hd rest hh] at hfind
        simp only [setTaskStage, hh, Bool.false_eq_true, if_false]
        exact List.mem_cons_of_mem _ (ih hfind)

theorem countP_le_one_mem_eq {α : Type _} (p : α → Bool) (a b : α)
    (hpa : p a = true) (hpb : p b = true) :
    ∀ l : List α, l.countP p ≤ 1 → a ∈ l → b ∈ l → a = b := by
  intro l
  induction l with
  | nil => intro _ ha; simp at ha
  | cons hd rest ih =>
      intro hle ha hb
      rw [List.countP_cons] at hle
      rcases List.mem_cons.mp ha with rfl | ha'
      · rcases List.mem_cons.mp hb with rfl | hb'
        · rfl
        · exfalso
          have h1 : 0 < rest.countP p := List.countP_pos_iff.mpr ⟨b, hb', hpb⟩
          rw [if_pos hpa] at hle
          omega
      · rcases List.mem_cons.mp hb with rfl | hb'
        · exfalso
          have h1 : 0 < rest.countP p := List.countP_pos_iff.mpr ⟨a, ha', hpa⟩
          rw [if_pos hpb] at hle
          omega
        · exact ih (by omega) ha' hb'

/-- Characterization of the successful event-loop turns: each is one
of the six per-turn result functions, with its side conditions. -/
theorem exec_some_cases (w : World) (c : Cmd) (w' : World)
    (hstep : exec w c = some w') :
    (∃ t e, c = Cmd.uiEvent t e ∧ w' = uiEventResult w t e)
  ∨ (∃ hd d, c = Cmd.fireTimer hd
        ∧ w.pending.find? (fun p => p.1 == hd) = some (hd, d)
        ∧ w' = fireResult w hd d)
  ∨ (∃ tid t tk, w.tasks.find? (fun x => x.id == tid) = some tk
        ∧ tk.stage = .awaitingCapabilities
        ∧ w' = capabilitiesFailResult w tid t)
  ∨ (∃ tid t tk, w.tasks.find? (fun x => x.id == tid) = some tk
        ∧ tk.stage = .awaitingCapabilities
        ∧ w' = capabilitiesOkResult w tid t tk.opts)
  ∨ (∃ tid t tk, w.tasks.find? (fun x => x.id == tid) = some tk
        ∧ tk.stage = .awaitingCreate
        ∧ w' = createResult w tid t)
  ∨ (∃ tid t tk sid, w.tasks.find? (fun x => x.id == tid) = some tk
        ∧ tk.stage = .awaitingSummarize sid
        ∧ ∃ r, w' = summarizeResult w tid t sid r) := by
  cases c with
  | uiEvent t e =>
      left
      simp only [exec] at hstep
      split at hstep
      · injection hstep with hh
        exact ⟨t, e, rfl, hh.symm⟩
      · simp at hstep
  | fireTimer hd =>
      right; left
      simp only [exec] at hstep
      cases hfind : w.pending.find? (fun p => p.1 == hd) with
      | none => rw [hfind] at hstep; simp at hstep
      | some pr =>
          rw [hfind] at hstep
          simp only at hstep
          split at hstep
          · injection hstep with hh
            have hpr : pr.1 = hd := by
              have := List.find?_some hfind
              simpa using this
            refine ⟨hd, pr.2, rfl, ?_, hh.symm⟩
            rw [← hpr]
            rw [Prod.mk.eta]
            rw [← hpr] at hfind
            exact hfind
          · simp at hstep
  | resolveCapabilities tid t resp =>
      simp only [exec] at hstep
      split at hstep
      · cases hfind : w.tasks.find? (fun x => x.id == tid) with
        | none => rw [hfind] at hstep; simp at hstep
        | some tk =>
            rw [hfind] at hstep
            simp only at hstep
            cases hst : tk.stage with
            | awaitingCapabilities =>
                rw [hst] at hstep
                simp only at hstep
                split at hstep
                · injection hstep with hh
                  exact Or.inr (Or.inr (Or.inl ⟨tid, t, tk, hfind, hst, hh.symm⟩))
                · injection hstep with hh
                  exact Or.inr (Or.inr (Or.inr (Or.inl
                    ⟨tid, t, tk, hfind, hst, hh.symm⟩)))
            | awaitingCreate => rw [hst] at hstep; simp at hstep
            | awaitingSummarize sid => rw [hst] at hstep; simp at hstep
            | done => rw [hst] at hstep; simp at hstep
            | failed msg => rw [hst] at hstep; simp at hstep
      · simp at hstep
  | resolveCreate tid t =>
      simp only [exec] at hstep
      split at hstep
      · cases hfind : w.tasks.find? (fun x => x.id == tid) with
        | none => rw [hfind] at hstep; simp at hstep
        | some tk =>
            rw [hfind] at hstep
            simp only at hstep
            cases hst : tk.stage with
            | awaitingCreate =>
                rw [hst] at hstep
                simp only at hstep
                injection hstep with hh
                exact Or.inr (Or.inr (Or.inr (Or.inr (Or.inl
                  ⟨tid, t, tk, hfind, hst, hh.symm⟩))))
            | awaitingCapabilities => rw [hst] at hstep; simp at hstep
            | awaitingSummarize sid => rw [hst] at hstep; simp at hstep
            | done => rw [hst] at hstep; simp at hstep
            | failed msg => rw [hst] at hstep; simp at hstep
      · simp at hstep
  | resolveSummarize tid t r =>
      simp only [exec] at hstep
      split at hstep
      · cases hfind : w.tasks.find? (fun x => x.id == tid) with
        | none => rw [hfind] at hstep; simp at hstep
        | some tk =>
            rw [hfind] at hstep
            simp only at hstep
            cases hst : tk.stage with
            | awaitingSummarize sid =>
                rw [hst] at hstep
                simp only at hstep
                injection hstep with hh
                exact Or.inr (Or.inr (Or.inr (Or.inr (Or.inr
                  ⟨tid, t, tk, sid, hfind, hst, r, hh.symm⟩))))
            | awaitingCapabilities => rw [hst] at hstep; simp at hstep
            | awaitingCreate => rw [hst] at hstep; simp at hstep
            | done => rw [hst] at hstep; simp at hstep
            | failed msg => rw [hst] at hstep; simp at hstep
      · simp at hstep

/-- C8: the timer invariant is preserved by every event-loop turn:
each run of the scheduling function cancels the stored timer handle
before registering and storing the new one, so at most one debounce
timer is ever live, and the stored handle is the live one. -/
theorem timer_single_slot (w : World) (c : Cmd) (w' : World)
    (hinv : SchedInv w) (hstep : exec w c = some w') : SchedInv w' := by
  obtain ⟨hlen, htv⟩ := hinv
  rcases exec_some_cases w c w' hstep with
    ⟨t, e, hceq, rfl⟩ | ⟨hd, d, hceq, hfind, rfl⟩
    | ⟨tid, t, tk, hfind, hst, rfl⟩
    | ⟨tid, t, tk, hfind, hst, rfl⟩ | ⟨tid, t, tk, hfind, hst, rfl⟩
    | ⟨tid, t, tk, sid, hfind, hst, r, rfl⟩
  · refine ⟨?_, ?_⟩ <;>
      simp [uiEventResult, scheduleSummarization, sched_filter_nil w htv]
  · refine ⟨?_, ?_⟩
    · simp only [fireResult]
      exact le_trans (List.length_filter_le _ _) hlen
    · simp only [fireResult]
      intro p hp
      exact htv p (List.mem_filter.mp hp).1
  · exact ⟨hlen, htv⟩
  · exact ⟨hlen, htv⟩
  · exact ⟨hlen, htv⟩
  · exact ⟨hlen, htv⟩

/-- Witness for `timer_single_slot` on the first input event. -/
theorem timer_single_slot_witness :
    SchedInv (uiEventResult (readyWorld kpOpts) 0 (.input "a")) :=
  timer_single_slot (readyWorld kpOpts) (.uiEvent 0 (.input "a"))
    (uiEventResult (readyWorld kpOpts) 0 (.input "a"))
    ⟨by decide, by decide⟩ (by decide)

/-- C9 counterexample: capability availability is not queried exactly
once.  After a ready initialization (one capabilities query), a
single debounced firing performs a second capabilities query — the
defensive re-check inside createSummarizationSession — so the
completed run has made two queries, the second after initialization
finished. -/
theorem availability_requeried_counterexample :
    (execList (initializeApplication hostReadily kpOpts)
      [Cmd.uiEvent 0 (.input "Hello"), Cmd.fireTimer 0,
       Cmd.resolveCapabilities 0 1200 .readily, Cmd.resolveCreate 0 1200,
       Cmd.resolveSummarize 0 1200 "Short."]).map
        (fun w => capCount w.trace)
    = some 2 := by
  rfl

/-- C9 amended: availability is queried once at initialization and
once more at the start of every debounce firing (the defensive
re-check inside createSummarizationSession); formally, every turn
preserves the equation: capabilities queries made = 1 + number of
firings started. -/
theorem capability_query_count (w : World) (c : Cmd) (w' : World)
    (hinv : capCount w.trace = 1 + w.nextTaskId)
    (hstep : exec w c = some w') :
    capCount w'.trace = 1 + w'.nextTaskId := by
  rcases exec_some_cases w c w' hstep with
    ⟨t, e, hceq, rfl⟩ | ⟨hd, d, hceq, hfind, rfl⟩
    | ⟨tid, t, tk, hfind, hst, rfl⟩
    | ⟨tid, t, tk, hfind, hst, rfl⟩ | ⟨tid, t, tk, hfind, hst, rfl⟩
    | ⟨tid, t, tk, sid, hfind, hst, r, rfl⟩
  · simpa [uiEventResult, scheduleSummarization] using hinv
  · simp only [fireResult, capCount, List.countP_append]
    simp only [capCount] at hinv
    rw [hinv]
    simp [List.countP_cons, isCapabilitiesCall]
    omega
  · simpa [capabilitiesFailResult] using hinv
  · simp only [capabilitiesOkResult, capCount, List.countP_append]
    simp only [capCount] at hinv
    rw [hinv]
    simp [List.countP_cons, isCapabilitiesCall]
  · simp only [createResult, capCount, List.countP_append]
    simp only [capCount] at hinv
    rw [hinv]
    simp [List.countP_cons, isCapabilitiesCall]
  · simp only [summarizeResult, capCount, List.countP_append]
    simp only [capCount] at hinv
    rw [hinv]
    simp [List.countP_cons, isCapabilitiesCall]

/-- Witness for `capability_query_count` on the firing turn after one
input event. -/
theorem capability_query_count_witness :
    capCount (fireResult (uiEventResult (readyWorld kpOpts) 0
        (.input "a")) 0 DEBOUNCE_MS).trace
      = 1 + (fireResult (uiEventResult (readyWorld kpOpts) 0
        (.input "a")) 0 DEBOUNCE_MS).nextTaskId :=
  capability_query_count (uiEventResult (readyWorld kpOpts) 0 (.input "a"))
    (.fireTimer 0)
    (fireResult (uiEventResult (readyWorld kpOpts) 0 (.input "a")) 0
      DEBOUNCE_MS)
    (by decide) (by decide)

/-- C10: when the defensive availability re-check resolves `no` after
a firing has started, the thrown error is caught nowhere: the firing
body stops failed, the message "AI Summarization is not supported"
becomes an unhandled rejection, no session call is added to the
trace, and the output region keeps showing the
"Generating summary..." placeholder. -/
theorem recheck_failure_unhandled (w : World) (tid t : Nat) (tk : STask)
    (hfind : w.tasks.find? (fun x => x.id == tid) = some tk)
    (hstage : tk.stage = .awaitingCapabilities)
    (hout : w.outputText = "Generating summary...")
    (hnow : w.now ≤ t) (hpend : ∀ p ∈ w.pending, t < p.2) :
    ∃ w', exec w (.resolveCapabilities tid t .no) = some w' ∧
      w'.outputText = "Generating summary..." ∧
      w'.unhandled = w.unhandled ++ ["AI Summarization is not supported"] ∧
      w'.trace = w.trace ∧ w'.alive = w.alive := by
  refine ⟨capabilitiesFailResult w tid t, ?_, ?_, ?_, ?_, ?_⟩
  · simp only [exec]
    rw [if_pos ⟨hnow, hpend⟩]
    simp [hfind, hstage]
  · simpa [capabilitiesFailResult] using hout
  · simp [capabilitiesFailResult]
  · simp [capabilitiesFailResult]
  · simp [capabilitiesFailResult]

/-- A state in which one firing body awaits its defensive re-check:
the world after one input event and the debounce firing. -/
def firedWorld : World :=
  fireResult (uiEventResult (readyWorld kpOpts) 0 (.input "Hello")) 0
    DEBOUNCE_MS

/-- Witness for `recheck_failure_unhandled` in `firedWorld`. -/
theorem recheck_failure_unhandled_witness :
    ∃ w', exec firedWorld (.resolveCapabilities 0 DEBOUNCE_MS .no)
        = some w' ∧
      w'.outputText = "Generating summary..." ∧
      w'.unhandled = firedWorld.unhandled ++
        ["AI Summarization is not supported"] ∧
      w'.trace = firedWorld.trace ∧ w'.alive = firedWorld.alive :=
  recheck_failure_unhandled firedWorld 0 DEBOUNCE_MS
    ⟨0, kpOpts, .awaitingCapabilities⟩ (by decide) rfl (by decide)
    (by decide) (by decide)

/-- C7 counterexample: two in-flight summarizations can overlap.  A
first firing whose summarize call is still awaited when a later
firing gets as far as creating its own session leaves two sessions
alive at once — nothing tracks an in-flight body separately from the
timer handle, so the second firing does not wait for the first. -/
theorem overlapping_sessions_counterexample :
    (execList (initializeApplication hostReadily kpOpts)
      [Cmd.uiEvent 0 (.input "a"), Cmd.fireTimer 0,
       Cmd.resolveCapabilities 0 1050 .readily,
       Cmd.uiEvent 1100 (.input "ab"),
       Cmd.resolveCreate 0 1150,
       Cmd.fireTimer 1,
       Cmd.resolveCapabilities 1 2150 .readily,
       Cmd.resolveCreate 1 2200]).map (fun w => w.alive)
    = some [0, 1] := by
  rfl

theorem activeCount_setTaskStage (w : World) (tid : Nat) (st : TaskStage)
    (tk : STask)
    (hfind : w.tasks.find? (fun x => x.id == tid) = some tk) :
    (setTaskStage w.tasks tid st).countP (fun x => isActiveStage x.stage)
        + (if isActiveStage tk.stage then 1 else 0)
      = activeCount w + (if isActiveStage st then 1 else 0) := by
  have h := countP_setTaskStage w.tasks tid st tk
    (fun x => isActiveStage x.stage) hfind
  simpa [activeCount] using h

/-- A session invariant state implies at most one live session. -/
theorem WInv_alive_le_one (w : World) (hinv : WInv w) :
    w.alive.length ≤ 1 := by
  rcases hinv.2 with h | ⟨sid, h, _⟩ <;> simp [h]

/-- C7 amended: sessions of distinct firings never overlap provided
every firing starts only when no earlier firing body is still in
flight (as when each summarization settles within the debounce
period); under that proviso every turn preserves the session
invariant, and in particular at most one session is alive at any
time.  Without the proviso the overlap counterexample applies. -/
theorem singleflight_no_overlap (w : World) (c : Cmd) (w' : World)
    (hinv : WInv w)
    (hfire : ∀ hd, c = Cmd.fireTimer hd → activeCount w = 0)
    (hstep : exec w c = some w') :
    WInv w' ∧ w'.alive.length ≤ 1 := by
  obtain ⟨hact, hown⟩ := hinv
  have main : WInv w' := by
    rcases exec_some_cases w c w' hstep with
      ⟨t, e, hceq, rfl⟩ | ⟨hd, d, hceq, hfind, rfl⟩
      | ⟨tid, t, tk, hfind, hst, rfl⟩
      | ⟨tid, t, tk, hfind, hst, rfl⟩ | ⟨tid, t, tk, hfind, hst, rfl⟩
      | ⟨tid, t, tk, sid, hfind, hst, r, rfl⟩
    · -- qualifying event: tasks and sessions unchanged
      refine ⟨?_, ?_⟩
      · simpa [activeCount, uiEventResult, scheduleSummarization] using hact
      · simpa [uiEventResult, scheduleSummarization] using hown
    · -- firing: allowed only with no in-flight body, starts one
      have hzero : activeCount w = 0 := hfire hd hceq
      have halive : w.alive = [] := by
        rcases hown with h | ⟨sid, hs, tk, htk, hstg⟩
        · exact h
        · exfalso
          have hpos : 0 < activeCount w :=
            List.countP_pos_iff.mpr ⟨tk, htk, by simp [isActiveStage, hstg]⟩
          omega
      refine ⟨?_, Or.inl ?_⟩
      · have hzero' : List.countP (fun tk => isActiveStage tk.stage) w.tasks
            = 0 := hzero
        simp only [activeCount, fireResult, List.countP_append]
        rw [hzero']
        simp [isActiveStage, List.countP_cons]
      · simp [fireResult, halive]
    · -- re-check failed: the only in-flight body stops, no session
      have halive : w.alive = [] := by
        rcases hown with h | ⟨sid, hs, tk1, htk1, hstg1⟩
        · exact h
        · exfalso
          have heq : tk1 = tk :=
            countP_le_one_mem_eq _ tk1 tk
              (by simp [isActiveStage, hstg1]) (by simp [isActiveStage, hst])
              w.tasks hact htk1 (List.mem_of_find?_eq_some hfind)
          rw [heq, hst] at hstg1
          exact TaskStage.noConfusion hstg1
      have hcnt := activeCount_setTaskStage w tid
        (.failed "AI Summarization is not supported") tk hfind
      rw [hst] at hcnt
      have hcnt2 : (setTaskStage w.tasks tid
            (TaskStage.failed "AI Summarization is not supported")).countP
            (fun x => isActiveStage x.stage) + 1
          = activeCount w := hcnt
      refine ⟨?_, Or.inl ?_⟩
      · show (setTaskStage w.tasks tid
            (TaskStage.failed "AI Summarization is not supported")).countP
            (fun x => isActiveStage x.stage) ≤ 1
        omega
      · simp [capabilitiesFailResult, halive]
    · -- re-check passed: the body moves on to awaiting create
      have halive : w.alive = [] := by
        rcases hown with h | ⟨sid, hs, tk1, htk1, hstg1⟩
        · exact h
        · exfalso
          have heq : tk1 = tk :=
            countP_le_one_mem_eq _ tk1 tk
              (by simp [isActiveStage, hstg1]) (by simp [isActiveStage, hst])
              w.tasks hact htk1 (List.mem_of_find?_eq_some hfind)
          rw [heq, hst] at hstg1
          exact TaskStage.noConfusion hstg1
      have hcnt := activeCount_setTaskStage w tid .awaitingCreate tk hfind
      rw [hst] at hcnt
      have hcnt2 : (setTaskStage w.tasks tid TaskStage.awaitingCreate).countP
            (fun x => isActiveStage x.stage) + 1
          = activeCount w + 1 := hcnt
      refine ⟨?_, Or.inl ?_⟩
      · show (setTaskStage w.tasks tid TaskStage.awaitingCreate).countP
            (fun x => isActiveStage x.stage) ≤ 1
        omega
      · simp [capabilitiesOkResult, halive]
    · -- create resolved: exactly this body now owns the new session
      have halive : w.alive = [] := by
        rcases hown with h | ⟨sid, hs, tk1, htk1, hstg1⟩
        · exact h
        · exfalso
          have heq : tk1 = tk :=
            countP_le_one_mem_eq _ tk1 tk
              (by simp [isActiveStage, hstg1]) (by simp [isActiveStage, hst])
              w.tasks hact htk1 (List.mem_of_find?_eq_some hfind)
          rw [heq, hst] at hstg1
          exact TaskStage.noConfusion hstg1
      have hcnt := activeCount_setTaskStage w tid
        (.awaitingSummarize w.nextSid) tk hfind
      rw [hst] at hcnt
      have hcnt2 : (setTaskStage w.tasks tid
            (TaskStage.awaitingSummarize w.nextSid)).countP
            (fun x => isActiveStage x.stage) + 1
          = activeCount w + 1 := hcnt
      refine ⟨?_, Or.inr ⟨w.nextSid, ?_, ?_⟩⟩
      · show (setTaskStage w.tasks tid
            (TaskStage.awaitingSummarize w.nextSid)).countP
            (fun x => isActiveStage x.stage) ≤ 1
        omega
      · simp [createResult, halive]
      · exact ⟨{ tk with stage := .awaitingSummarize w.nextSid },
          mem_setTaskStage_self w.tasks tid _ tk hfind, rfl⟩
    · -- summarize resolved: its session is destroyed
      have hcnt := activeCount_setTaskStage w tid .done tk hfind
      have halive : w.alive = [] ∨ w.alive = [sid] := by
        rcases hown with h | ⟨sid1, hs, tk1, htk1, hstg1⟩
        · exact Or.inl h
        · right
          have heq : tk1 = tk :=
            countP_le_one_mem_eq _ tk1 tk
              (by simp [isActiveStage, hstg1]) (by simp [isActiveStage, hst])
              w.tasks hact htk1 (List.mem_of_find?_eq_some hfind)
          rw [heq, hst] at hstg1
          injection hstg1 with hsid
          rw [hsid]
          exact hs
      rw [hst] at hcnt
      have hcnt2 : (setTaskStage w.tasks tid TaskStage.done).countP
            (fun x => isActiveStage x.stage) + 1
          = activeCount w := hcnt
      refine ⟨?_, Or.inl ?_⟩
      · show (setTaskStage w.tasks tid TaskStage.done).countP
            (fun x => isActiveStage x.stage) ≤ 1
        omega
      · rcases halive with h | h <;> simp [summarizeResult, h]
  exact ⟨main, WInv_alive_le_one w' main⟩

/-- Witness for `singleflight_no_overlap` on the first input event. -/
theorem singleflight_no_overlap_witness :
    WInv (uiEventResult (readyWorld kpOpts) 0 (.input "a")) ∧
    (uiEventResult (readyWorld kpOpts) 0 (.input "a")).alive.length ≤ 1 :=
  singleflight_no_overlap (readyWorld kpOpts) (.uiEvent 0 (.input "a"))
    (uiEventResult (readyWorld kpOpts) 0 (.input "a"))
    ⟨by decide, Or.inl (by decide)⟩
    (fun hd h => Cmd.noConfusion h) (by decide)

end SummarizationPlayground
